import Mathlib

/-!
# Verification of the portal map-animation editor (`src/mapper/script.js`)

Shallow embedding of the data model and operations of the map-animation
editor/player, together with theorems settling the specification claims.
JavaScript numbers are modelled as `ℚ` where the code only adds, multiplies
and compares (registry records, route stepping, coordinate normalisation),
and as `ℝ` where the code calls `Math.sqrt` (the pixel-space split geometry).
External browser/library facilities (JSON serialisation, the map projection)
appear as parameters with the contracts those libraries document.
-/

namespace Portal

/-- A geographic or pixel coordinate pair, as the JS code passes `[x, y]`
arrays of two numbers. -/
abbrev Coord := ℚ × ℚ

/-- `normalizeCoord` (script.js lines 51-57, repeated verbatim at 227-232 and
646/671-676): given a two-element pair, swap the components exactly when the
first looks like a latitude (`|x| ≤ 90`) and the second looks like a
longitude (`|y| > 90`); otherwise return the pair unchanged. -/
def normalizeCoord (pt : Coord) : Coord :=
  if |pt.1| ≤ 90 ∧ 90 < |pt.2| then (pt.2, pt.1) else pt

/-- Parameter records of the animation registry entries, one constructor per
`type` tag pushed by the toolbar handlers (script.js lines 497, 509, 521,
530, 542, 555); `other` stands for an entry whose `type` matches none of the
branches of `playAnimation`. -/
inductive Anim where
  | circle (animId : String) (centre : Coord) (radius : ℚ) (color : String)
  | split (animId : String) (a b : Coord) (side : String) (color : String)
  | route (animId : String) (points : List Coord) (speed : ℚ) (color : String)
  | polygon (animId : String) (points : List Coord) (color : String)
  | marker (animId : String) (point : Coord) (color : String)
  | keyframe (animId : String) (center : Coord) (zoom : ℚ)
  | other (ty : String) (animId : String)
  deriving DecidableEq, Inhabited

/-- The `id` field of a registry entry. -/
def Anim.animId : Anim → String
  | .circle i _ _ _ => i
  | .split i _ _ _ _ => i
  | .route i _ _ _ => i
  | .polygon i _ _ => i
  | .marker i _ _ => i
  | .keyframe i _ _ => i
  | .other _ i => i

/-- `moveAnimationById` (script.js lines 380-389): find the entry with the
given id (`findIndex`); if absent (`idx < 0`) return unchanged; compute
`newIdx = idx + direction`; if out of bounds return unchanged; otherwise swap
the entries at `idx` and `newIdx`.  JS array indexing is total, so the two
reads are modelled with `getD`. -/
def moveAnimationById (anims : List Anim) (i : String) (direction : Int) :
    List Anim :=
  match anims.findIdx? (fun a => a.animId = i) with
  | none => anims
  | some idx =>
    let newIdx : Int := (idx : Int) + direction
    if newIdx < 0 ∨ (anims.length : Int) ≤ newIdx then anims
    else
      let tmp := anims.getD idx default
      (anims.set idx (anims.getD newIdx.toNat default)).set newIdx.toNat tmp

/-! ## Local-storage persistence (script.js lines 589-607) -/

/-- What `JSON.parse` can hand back to `loadAnimationsFromStorage`: a parse
error (the `catch` branch), a JSON array decoding to a registry, or any
non-array JSON value (`Array.isArray` false). -/
inductive ParsedJson where
  | arr (l : List Anim)
  | nonArray
  deriving DecidableEq

/-- Application state touched by persistence: the registry `ui.animations`
and the `map_animations_v1` local-storage slot (`none` when the key is
absent, as `localStorage.getItem` then returns `null`). -/
structure AppState where
  animations : List Anim
  storage : Option String
  deriving DecidableEq

/-- `saveAnimationsToStorage` (script.js lines 591-595): store
`JSON.stringify(ui.animations)` under `STORAGE_KEY`.  `stringify` is the
browser's JSON serialiser, passed as a parameter. -/
def saveAnimationsToStorage (stringify : List Anim → String)
    (st : AppState) : AppState :=
  { st with storage := some (stringify st.animations) }

/-- `loadAnimationsFromStorage` (script.js lines 597-607): read the raw
string at `STORAGE_KEY`; if absent do nothing; parse it (`parse` is the
browser's `JSON.parse`, `none` modelling a thrown parse error caught by the
surrounding `try`); if the result is an array replace `ui.animations` with
it, otherwise do nothing. -/
def loadAnimationsFromStorage (parse : String → Option ParsedJson)
    (st : AppState) : AppState :=
  match st.storage with
  | none => st
  | some raw =>
    match parse raw with
    | none => st
    | some (.arr l) => { st with animations := l }
    | some .nonArray => st

/-! ## Point capture and the split toolbar handler (script.js 442-512) -/

/-- A user interaction event while the capture overlay is open: a map click
at a coordinate, a press of the overlay Cancel button, or a press of the
overlay Stop button. -/
inductive CaptureEv where
  | click (p : Coord)
  | cancelBtn
  | stopBtn
  deriving DecidableEq

/-- `capturePoints` (script.js lines 442-487) as a function of the stream of
overlay events: clicks accumulate points (and in single mode the first click
finishes immediately); Cancel rejects the promise with `'cancelled'`; Stop
resolves with the points so far.  `none` means the event stream ended with
the promise still pending. -/
def capturePoints (multiple : Bool) :
    List CaptureEv → List Coord → Option (Except String (List Coord))
  | [], _ => none
  | .click p :: rest, acc =>
    if multiple then capturePoints multiple rest (acc ++ [p])
    else some (.ok (acc ++ [p]))
  | .cancelBtn :: _, _ => some (.error "cancelled")
  | .stopBtn :: _, acc => some (.ok acc)

/-- The `btnSplit` click handler (script.js lines 502-512): await
`capturePoints`; on rejection the `catch {}` swallows the error and the
registry is untouched; on fewer than two points return early; otherwise push
a `split` entry built from the first two points and the prompted side and
colour. -/
def btnSplitHandler (captured : Option (Except String (List Coord)))
    (side color newId : String) (anims : List Anim) : List Anim :=
  match captured with
  | none => anims
  | some (.error _) => anims
  | some (.ok pts) =>
    if pts.length < 2 then anims
    else anims ++ [.split newId (pts.getD 0 default) (pts.getD 1 default)
                    side color]

/-! ## Keyframes (script.js lines 284-301 and 705-720) -/

/-- A Leaflet `LatLng`, as returned by `map.getCenter()`. -/
structure LatLng where
  lat : ℚ
  lng : ℚ
  deriving DecidableEq

/-- The map view state read and driven by the code: current center and
zoom. -/
structure MapView where
  center : LatLng
  zoom : ℚ
  deriving DecidableEq

/-- `toLatLng` (script.js line 20): build a `LatLng` from a `[lng, lat]`
pair. -/
def toLatLng (coord : Coord) : LatLng := ⟨coord.2, coord.1⟩

/-- The object `placeKeyframe` returns (script.js line 300). -/
structure KeyframeResult where
  resId : String
  center : Coord
  zoom : ℚ
  deriving DecidableEq

/-- `placeKeyframe` (script.js lines 284-301): read the map's current center
and zoom, build `centerCoords = [center.lng, center.lat]`, pick
`opts.id || keyframe-<now>` (JS `||` treats the empty string as falsy), and
return `{id, center, zoom}`. -/
def placeKeyframe (m : MapView) (optsId : Option String) (now : ℕ) :
    KeyframeResult :=
  let genId := "keyframe-" ++ toString now
  let i := match optsId with
    | some s => if s = "" then genId else s
    | none => genId
  { resId := i, center := (m.center.lng, m.center.lat), zoom := m.zoom }

/-- The `flyTo` target of `playAnimation`'s keyframe branch (script.js lines
705-712): fly to `toLatLng(params.center)` at `params.zoom` when the stored
zoom is non-null, else at the map's current zoom. -/
def playKeyframeFlyTarget (center : Coord) (zoom : Option ℚ) (m : MapView) :
    LatLng × ℚ :=
  (toLatLng center, match zoom with | some z => z | none => m.zoom)

/-! ## Route stepping (script.js lines 190-222) -/

/-- A JS number restricted to what `drawRoute`'s loop arithmetic produces:
either an actual (rational) value or `NaN` (e.g. `parseFloat` of garbage
passed through as the speed). -/
inductive JsNum where
  | num (q : ℚ)
  | nan
  deriving DecidableEq

/-- JS addition: any sum involving `NaN` is `NaN`. -/
def JsNum.add : JsNum → JsNum → JsNum
  | .num a, .num b => .num (a + b)
  | _, _ => .nan

/-- JS `>`: any comparison with `NaN` is false. -/
def JsNum.gt : JsNum → JsNum → Bool
  | .num a, .num b => decide (b < a)
  | _, _ => false

/-- JS `>=`: any comparison with `NaN` is false. -/
def JsNum.ge : JsNum → JsNum → Bool
  | .num a, .num b => decide (b ≤ a)
  | _, _ => false

/-- JS multiplication: any product involving `NaN` is `NaN`. -/
def JsNum.mul : JsNum → JsNum → JsNum
  | .num a, .num b => .num (a * b)
  | _, _ => .nan

/-- `stepMeters` (script.js line 206): `speedMetersPerSecond * (40 / 1000)`. -/
def stepMeters (speed : JsNum) : JsNum := speed.mul (.num (40 / 1000))

/-- One iteration of `step()`'s travelled-distance update (script.js lines
209-210): `traveled += stepMeters; if (traveled > totalMeters) traveled =
totalMeters`. -/
def routeStep (sm : JsNum) (totalMeters : ℚ) (traveled : JsNum) : JsNum :=
  let t := traveled.add sm
  if t.gt (.num totalMeters) then .num totalMeters else t

/-- The travelled distance after `n` executions of `step()` (the loop starts
from `traveled = 0`, line 204). -/
def traveledAfter (sm : JsNum) (totalMeters : ℚ) : ℕ → JsNum
  | 0 => .num 0
  | n + 1 => routeStep sm totalMeters (traveledAfter sm totalMeters n)

/-- `drawRoute`'s promise resolves iff some iteration reaches
`traveled >= totalMeters` (script.js line 214). -/
def drawRouteResolves (speed : JsNum) (totalMeters : ℚ) : Prop :=
  ∃ n : ℕ, (traveledAfter (stepMeters speed) totalMeters n).ge
    (.num totalMeters) = true

/-! ## Playback sequencing (script.js lines 569-584 and 643-721) -/

/-- One awaited action of the playback engine, in the order `playAnimation`
performs them: a `fitBounds` or `flyTo` map transition, a wait for the
`moveend` event, an invocation of the drawing primitive for the given type
tag, or a `setTimeout` pause of the given number of milliseconds. -/
inductive PlayStep where
  | fitBounds
  | flyTo
  | awaitMoveEnd
  | draw (ty : String)
  | settle (ms : ℕ)
  deriving DecidableEq

/-- The sequence of awaited actions `playAnimation` performs for one entry
(script.js lines 643-721): circle 644-668 (`fitBounds`, `moveend`,
`drawCircle`, 6000 ms), split 669-684 (`flyTo`, `moveend`, `splitMap`,
6000 ms), route 685-692 (`fitBounds`, `moveend`, awaited `drawRoute`, no
pause), polygon 693-697 (`drawPolygon` with no map movement, 6000 ms),
marker 698-704 (`flyTo`, `moveend`, `dropMarker`, 500 ms), keyframe 705-719
(`flyTo`, `moveend`, 800 ms, no drawing call), any other type falls through
doing nothing. -/
def playAnimationTrace : Anim → List PlayStep
  | .circle .. => [.fitBounds, .awaitMoveEnd, .draw "circle", .settle 6000]
  | .split .. => [.flyTo, .awaitMoveEnd, .draw "split", .settle 6000]
  | .route .. => [.fitBounds, .awaitMoveEnd, .draw "route"]
  | .polygon .. => [.draw "polygon", .settle 6000]
  | .marker .. => [.flyTo, .awaitMoveEnd, .draw "marker", .settle 500]
  | .keyframe .. => [.flyTo, .awaitMoveEnd, .settle 800]
  | .other .. => []

/-- The `btnPlayAll` handler's loop (script.js lines 576-579): for each
registry entry in stored order, `await playAnimation(a)` then await a 500 ms
pause, before moving to the next entry. -/
def btnPlayAllTrace : List Anim → List PlayStep
  | [] => []
  | a :: rest => playAnimationTrace a ++ [.settle 500] ++ btnPlayAllTrace rest

/-- Whether a playback step is a map transition (`flyTo` or `fitBounds`). -/
def PlayStep.isTransition : PlayStep → Bool
  | .fitBounds => true
  | .flyTo => true
  | _ => false

/-! ## Return values of the drawing primitives -/

/-- The JS value a drawing primitive returns: `undefined` (a function body
that falls through without `return`), `null`, an id string, a Leaflet marker
object (with its optional `_animId` tag), the keyframe record, or a pending
promise object. -/
inductive JsValue where
  | undefinedValue
  | nullv
  | str (s : String)
  | markerObj (animId : Option String)
  | keyframeObj (k : KeyframeResult)
  | promiseObj
  deriving DecidableEq

/-- JS `a || b` for an optional string `a`: the empty string is falsy. -/
def strOrDefault (a : Option String) (b : String) : String :=
  match a with
  | some s => if s = "" then b else s
  | none => b

/-- `drawCircle`'s return value (script.js lines 29-46): the id
`opts.id || circle-<now>`. -/
def drawCircleReturn (optsId : Option String) (now : ℕ) : JsValue :=
  .str (strOrDefault optsId ("circle-" ++ toString now))

/-- `splitMap`'s return value (script.js lines 49-186): the function body
only schedules drawing side effects and falls through without a `return`
statement, so the call evaluates to `undefined`. -/
def splitMapReturn (pointA pointB : Coord) (sideToShade : String) : JsValue :=
  .undefinedValue

/-- `drawRoute`'s return value (script.js lines 190-222): a promise that
resolves with no value (or rejects for fewer than two points), never an
identifier. -/
def drawRouteReturn (points : List Coord) (speed : ℚ) : JsValue :=
  .promiseObj

/-- `dropMarker`'s return value (script.js lines 225-246): `null` when the
input is not an array, otherwise the marker object, tagged with `_animId`
when `opts.id` is truthy. -/
def dropMarkerReturn (lnglat : Option Coord) (optsId : Option String) :
    JsValue :=
  match lnglat with
  | none => .nullv
  | some _ =>
    .markerObj (match optsId with
      | some s => if s = "" then none else some s
      | none => none)

/-- `drawPolygon`'s return value (script.js lines 305-322): `null` for fewer
than three points, otherwise the id `opts.id || polygon-<now>`. -/
def drawPolygonReturn (points : List Coord) (optsId : Option String)
    (now : ℕ) : JsValue :=
  if points.length < 3 then .nullv
  else .str (strOrDefault optsId ("polygon-" ++ toString now))

/-- `placeKeyframe`'s return value as a JS value (script.js line 300). -/
def placeKeyframeReturn (m : MapView) (optsId : Option String) (now : ℕ) :
    JsValue :=
  .keyframeObj (placeKeyframe m optsId now)

/-- Spec-side predicate, from the spec's words "each … returns an
identifier": the returned value is an id string. -/
def specReturnsIdentifier : JsValue → Bool
  | .str _ => true
  | _ => false

/-! ## The pixel-space half-plane split geometry (script.js lines 62-183)

`splitMap` projects the two selected points and the arithmetic-mean midpoint
into layer-pixel space, draws the split line through the projected midpoint
perpendicular (in pixels) to the A→B vector, and later shades a half-plane
polygon obtained by offsetting the split-line endpoints along a unit normal
oriented towards point A (side 'A') or away from it (side 'B').  Pixel
coordinates are real numbers here; the projection `latLngToLayerPoint` is an
external Leaflet function and enters as a parameter. -/

noncomputable section

/-- A layer-pixel point. -/
abbrev Px := ℝ × ℝ

/-- JS `Math.sqrt(x) || 1` as the code uses it on a sum of squares
(script.js lines 87 and 146): the square root, with `0` replaced by `1`. -/
def jsSqrtOr1 (x : ℝ) : ℝ :=
  if Real.sqrt x = 0 then 1 else Real.sqrt x

/-- The pixel vector from A to B (script.js lines 82-83). -/
def pixVec (aPt bPt : Px) : Px := (bPt.1 - aPt.1, bPt.2 - aPt.2)

/-- The normalised perpendicular `(px, py)` of the split line (script.js
lines 84-88): rotate the A→B pixel vector to `(-vy, vx)` and divide by its
length (`|| 1` guarding the degenerate case). -/
def perpUnit (aPt bPt : Px) : Px :=
  let vx := (pixVec aPt bPt).1
  let vy := (pixVec aPt bPt).2
  let plen := jsSqrtOr1 ((-vy) * (-vy) + vx * vx)
  (-vy / plen, vx / plen)

/-- Endpoint `p1Pixel` of the split line (script.js line 94): the projected
midpoint pushed `extend` pixels along the perpendicular. -/
def splitP1 (aPt bPt midPt : Px) (extend : ℝ) : Px :=
  (midPt.1 + (perpUnit aPt bPt).1 * extend,
   midPt.2 + (perpUnit aPt bPt).2 * extend)

/-- Endpoint `p2Pixel` of the split line (script.js line 95). -/
def splitP2 (aPt bPt midPt : Px) (extend : ℝ) : Px :=
  (midPt.1 - (perpUnit aPt bPt).1 * extend,
   midPt.2 - (perpUnit aPt bPt).2 * extend)

/-- The unit normal of the split line before the orientation flip (script.js
lines 141-147): rotate `p2Pixel - p1Pixel` to `(-dy, dx)` and divide by its
length (`|| 1`). -/
def splitNormalBase (aPt bPt midPt : Px) (extend : ℝ) : Px :=
  let p1 := splitP1 aPt bPt midPt extend
  let p2 := splitP2 aPt bPt midPt extend
  let dx := p2.1 - p1.1
  let dy := p2.2 - p1.2
  let nlen := jsSqrtOr1 ((-dy) * (-dy) + dx * dx)
  (-dy / nlen, dx / nlen)

/-- The oriented unit normal (script.js lines 149-153): flip the base normal
when its dot product with `aPt - p1Pixel` is negative, so that it points
towards point A's side. -/
def splitNormal (aPt bPt midPt : Px) (extend : ℝ) : Px :=
  let p1 := splitP1 aPt bPt midPt extend
  let n := splitNormalBase aPt bPt midPt extend
  let dot := n.1 * (aPt.1 - p1.1) + n.2 * (aPt.2 - p1.2)
  if dot < 0 then (-n.1, -n.2) else n

/-- `bigPx` (script.js line 140): how far the shading polygon is pushed away
from the split line, `extend * 3` pixels. -/
def bigPx (extend : ℝ) : ℝ := extend * 3

/-- Far corner `p1_far` of the side-A polygon (script.js line 155):
`p1Pixel` offset `bigPx` along the oriented normal.  The side-A polygon is
`[p1, p2, p2_far, p1_far, p1]` (line 163). -/
def polygonAFar1 (aPt bPt midPt : Px) (extend : ℝ) : Px :=
  let p1 := splitP1 aPt bPt midPt extend
  let n := splitNormal aPt bPt midPt extend
  (p1.1 + n.1 * bigPx extend, p1.2 + n.2 * bigPx extend)

/-- Far corner `p2_far` of the side-A polygon (script.js line 156). -/
def polygonAFar2 (aPt bPt midPt : Px) (extend : ℝ) : Px :=
  let p2 := splitP2 aPt bPt midPt extend
  let n := splitNormal aPt bPt midPt extend
  (p2.1 + n.1 * bigPx extend, p2.2 + n.2 * bigPx extend)

/-- Far corner `p1_far_b` of the side-B polygon (script.js line 165): offset
in the negative normal direction.  The side-B polygon is
`[p1, p2, ext2b, ext1b, p1]` (line 171). -/
def polygonBFar1 (aPt bPt midPt : Px) (extend : ℝ) : Px :=
  let p1 := splitP1 aPt bPt midPt extend
  let n := splitNormal aPt bPt midPt extend
  (p1.1 - n.1 * bigPx extend, p1.2 - n.2 * bigPx extend)

/-- Far corner `p2_far_b` of the side-B polygon (script.js line 166). -/
def polygonBFar2 (aPt bPt midPt : Px) (extend : ℝ) : Px :=
  let p2 := splitP2 aPt bPt midPt extend
  let n := splitNormal aPt bPt midPt extend
  (p2.1 - n.1 * bigPx extend, p2.2 - n.2 * bigPx extend)

/-- The side selection (script.js line 178): shade the side-A polygon when
`sideToShade === 'A'`, else the side-B polygon; returned here by its two far
corners (the near corners `p1`, `p2` are shared by both polygons). -/
def shadedFarCorners (aPt bPt midPt : Px) (extend : ℝ)
    (sideToShade : String) : Px × Px :=
  if sideToShade = "A" then
    (polygonAFar1 aPt bPt midPt extend, polygonAFar2 aPt bPt midPt extend)
  else
    (polygonBFar1 aPt bPt midPt extend, polygonBFar2 aPt bPt midPt extend)

/-- The arithmetic-mean midpoint of the two selected geographic points
(script.js line 67). -/
def midpointCoord (pointA pointB : ℝ × ℝ) : ℝ × ℝ :=
  ((pointA.1 + pointB.1) / 2, (pointA.2 + pointB.2) / 2)

/-- Signed side of a pixel point `q` relative to the split line: the dot
product of the oriented normal with `q - p1Pixel`.  Positive means the side
the oriented normal points into. -/
def sideOf (aPt bPt midPt : Px) (extend : ℝ) (q : Px) : ℝ :=
  let p1 := splitP1 aPt bPt midPt extend
  let n := splitNormal aPt bPt midPt extend
  n.1 * (q.1 - p1.1) + n.2 * (q.2 - p1.2)

end

/-! ## Shared helper lemmas -/

/-- Replacing the element at `k` by `x` while consing the old element in
front is a permutation of consing `x` in front. -/
lemma cons_getElem_set_perm :
    ∀ (l : List Anim) (k : ℕ) (hk : k < l.length) (x : Anim),
      (l.get ⟨k, hk⟩ :: l.set k x).Perm (x :: l) := by
  intro l
  induction l with
  | nil => intro k hk x; exact absurd hk (by simp)
  | cons a t ih =>
    intro k hk x
    cases k with
    | zero => simpa using List.Perm.swap x a t
    | succ m =>
      have hm : m < t.length := by simpa using hk
      exact ((List.Perm.swap a (t.get ⟨m, hm⟩) (t.set m x)).trans
        ((ih m hm x).cons a)).trans (List.Perm.swap x a t)

/-- Swapping two positions of a list by a pair of `set`s is a
permutation. -/
lemma set_set_swap_perm :
    ∀ (l : List Anim) (i j : ℕ) (hi : i < l.length) (hj : j < l.length),
      ((l.set i (l.get ⟨j, hj⟩)).set j (l.get ⟨i, hi⟩)).Perm l := by
  intro l
  induction l with
  | nil => intro i j hi _; exact absurd hi (by simp)
  | cons a t ih =>
    intro i j hi hj
    cases i with
    | zero =>
      cases j with
      | zero => simp
      | succ m =>
        have hm : m < t.length := by simpa using hj
        simpa using cons_getElem_set_perm t m hm a
    | succ k =>
      have hk : k < t.length := by simpa using hi
      cases j with
      | zero =>
        simpa using cons_getElem_set_perm t k hk a
      | succ m =>
        have hm : m < t.length := by simpa using hj
        simpa using (ih k m hk hm).cons a

/-! ## C9: coordinate normalisation -/

/-- C9: `normalizeCoord` swaps a pair exactly when the first component's
absolute value is at most 90 and the second's exceeds 90, and otherwise
returns the pair unchanged; it is idempotent, so a pair whose components
both have absolute value at most 90 is never swapped. -/
theorem normalizeCoord_spec (p : Coord) :
    ((|p.1| ≤ 90 ∧ 90 < |p.2|) → normalizeCoord p = (p.2, p.1)) ∧
    (¬(|p.1| ≤ 90 ∧ 90 < |p.2|) → normalizeCoord p = p) ∧
    normalizeCoord (normalizeCoord p) = normalizeCoord p ∧
    (|p.1| ≤ 90 → |p.2| ≤ 90 → normalizeCoord p = p) := by
  have hswap : ∀ q : Coord, |q.1| ≤ 90 ∧ 90 < |q.2| →
      normalizeCoord q = (q.2, q.1) := by
    intro q h
    simp only [normalizeCoord, if_pos h]
  have hkeep : ∀ q : Coord, ¬(|q.1| ≤ 90 ∧ 90 < |q.2|) →
      normalizeCoord q = q := by
    intro q h
    simp only [normalizeCoord, if_neg h]
  refine ⟨hswap p, hkeep p, ?_, fun h1 h2 => hkeep p ?_⟩
  · by_cases h : |p.1| ≤ 90 ∧ 90 < |p.2|
    · rw [hswap p h]
      exact hkeep (p.2, p.1) (by push_neg; intro hle; linarith [h.2])
    · rw [hkeep p h]
      exact hkeep p h
  · push_neg
    intro _
    linarith

/-- Witness for C9 at the concrete pair `(50, 100)`: the first component
looks like a latitude and the second like a longitude, so the pair is
swapped, and a second application changes nothing. -/
theorem normalizeCoord_spec_witness :
    normalizeCoord ((50 : ℚ), (100 : ℚ)) = (100, 50) ∧
    normalizeCoord (normalizeCoord ((50 : ℚ), (100 : ℚ))) =
      normalizeCoord ((50 : ℚ), (100 : ℚ)) :=
  ⟨(normalizeCoord_spec (50, 100)).1 (by norm_num),
   (normalizeCoord_spec (50, 100)).2.2.1⟩

/-! ## C6: registry reordering -/

/-- C6: `moveAnimationById` with `direction = ±1` preserves the length and
the multiset of entries; when the id is absent the registry is unchanged;
when found at `idx`, a move whose target index falls outside the registry
leaves it unchanged, and an in-range move swaps the entry with its
neighbour at `idx + direction`, leaving every other position untouched. -/
theorem moveAnimationById_spec (anims : List Anim) (i : String)
    (direction : Int) (hdir : direction = -1 ∨ direction = 1) :
    (moveAnimationById anims i direction).length = anims.length ∧
    ((moveAnimationById anims i direction : Multiset Anim) =
      (anims : Multiset Anim)) ∧
    ((∀ a ∈ anims, a.animId ≠ i) → moveAnimationById anims i direction = anims) ∧
    (∀ idx : ℕ, anims.findIdx? (fun a => a.animId = i) = some idx →
      (((idx : Int) + direction < 0 ∨
          (anims.length : Int) ≤ (idx : Int) + direction) →
        moveAnimationById anims i direction = anims) ∧
      (∀ newIdx : ℕ, (newIdx : Int) = (idx : Int) + direction →
        newIdx < anims.length →
        (moveAnimationById anims i direction).getD newIdx default =
          anims.getD idx default ∧
        (moveAnimationById anims i direction).getD idx default =
          anims.getD newIdx default ∧
        ∀ k : ℕ, k ≠ idx → k ≠ newIdx →
          (moveAnimationById anims i direction).getD k default =
            anims.getD k default)) := by
  match hfind : anims.findIdx? (fun a => a.animId = i) with
  | none =>
    have hmv : moveAnimationById anims i direction = anims := by
      simp only [moveAnimationById, hfind]
    refine ⟨by rw [hmv], by rw [hmv], fun _ => hmv, fun idx hsome => ?_⟩
    rw [hfind] at hsome
    exact absurd hsome (by simp)
  | some idx =>
    obtain ⟨hidx, hp, -⟩ := List.findIdx?_eq_some_iff_getElem.mp hfind
    by_cases hb : (idx : Int) + direction < 0 ∨
        (anims.length : Int) ≤ (idx : Int) + direction
    · have hmv : moveAnimationById anims i direction = anims := by
        simp only [moveAnimationById, hfind]
        rw [if_pos hb]
      refine ⟨by rw [hmv], by rw [hmv], fun _ => hmv, fun idx' hsome => ?_⟩
      rw [hfind] at hsome
      obtain rfl : idx = idx' := by simpa using hsome
      refine ⟨fun _ => hmv, fun newIdx hnew hlt => ?_⟩
      exfalso
      omega
    · set j : ℕ := ((idx : Int) + direction).toNat with hjdef
      have hj0 : (0 : Int) ≤ (idx : Int) + direction := by omega
      have hjcast : (j : Int) = (idx : Int) + direction := Int.toNat_of_nonneg hj0
      have hjlt : j < anims.length := by omega
      have hne : idx ≠ j := by omega
      have hmv : moveAnimationById anims i direction =
          (anims.set idx (anims.getD j default)).set j
            (anims.getD idx default) := by
        simp only [moveAnimationById, hfind]
        rw [if_neg hb]
      have hperm : (moveAnimationById anims i direction).Perm anims := by
        rw [hmv, List.getD_eq_getElem anims default hjlt,
          List.getD_eq_getElem anims default hidx]
        simpa using set_set_swap_perm anims idx j hidx hjlt
      refine ⟨hperm.length_eq, Multiset.coe_eq_coe.mpr hperm, fun habs => ?_,
        fun idx' hsome => ?_⟩
      · exfalso
        exact habs (anims.get ⟨idx, hidx⟩) (anims.get_mem _ _)
          (by simpa using hp)
      · rw [hfind] at hsome
        obtain rfl : idx = idx' := by simpa using hsome
        refine ⟨fun hb' => absurd hb' hb, fun newIdx hnew hlt => ?_⟩
        obtain rfl : newIdx = j := by omega
        have hjset : j < ((anims.set idx (anims.getD j default)).set j
            (anims.getD idx default)).length := by
          simpa using hjlt
        refine ⟨?_, ?_, fun k hki hkj => ?_⟩
        · rw [hmv, List.getD_eq_getElem _ _ (by simpa using hjlt)]
          simp
        · rw [hmv, List.getD_eq_getElem _ _ (by simpa using hidx)]
          rw [List.getElem_set_ne (by omega), List.getElem_set_self]
        · by_cases hk : k < anims.length
          · rw [hmv, List.getD_eq_getElem _ _ (by simpa using hk),
              List.getElem_set_ne (by omega), List.getElem_set_ne (by omega),
              List.getD_eq_getElem _ _ hk]
          · rw [hmv, List.getD_eq_default _ _ (by simpa using hk),
              List.getD_eq_default _ _ (by omega)]

/-- Witness for C6: moving the first of two entries down swaps them while
keeping the length and the multiset of entries. -/
theorem moveAnimationById_spec_witness :
    (moveAnimationById
      [Anim.other "x" "a", Anim.other "x" "b"] "a" 1).length =
      ([Anim.other "x" "a", Anim.other "x" "b"] : List Anim).length ∧
    ((moveAnimationById
      [Anim.other "x" "a", Anim.other "x" "b"] "a" 1 : Multiset Anim) =
      ([Anim.other "x" "a", Anim.other "x" "b"] : Multiset Anim)) :=
  ⟨(moveAnimationById_spec [Anim.other "x" "a", Anim.other "x" "b"] "a" 1
      (Or.inr rfl)).1,
   (moveAnimationById_spec [Anim.other "x" "a", Anim.other "x" "b"] "a" 1
      (Or.inr rfl)).2.1⟩

/-! ## C5: persistence round-trip -/

/-- C5: for a registry that the browser's JSON serialiser round-trips (the
contract of `JSON.stringify`/`JSON.parse` on an array of plain records),
saving with `saveAnimationsToStorage` and then loading with
`loadAnimationsFromStorage` restores a registry equal to the saved one. -/
theorem save_load_roundtrip (stringify : List Anim → String)
    (parse : String → Option ParsedJson) (st : AppState)
    (hjson : parse (stringify st.animations) =
      some (ParsedJson.arr st.animations)) :
    (loadAnimationsFromStorage parse
      (saveAnimationsToStorage stringify st)).animations = st.animations := by
  simp only [saveAnimationsToStorage, loadAnimationsFromStorage, hjson]

/-- Witness for C5 with an empty registry and a serialiser pair that
round-trips it. -/
theorem save_load_roundtrip_witness :
    (loadAnimationsFromStorage (fun _ => some (ParsedJson.arr []))
      (saveAnimationsToStorage (fun _ => "[]")
        { animations := [], storage := none })).animations =
      ({ animations := [], storage := none } : AppState).animations :=
  save_load_roundtrip (fun _ => "[]") (fun _ => some (ParsedJson.arr []))
    { animations := [], storage := none } rfl

/-! ## C7: cancelled capture leaves the registry unchanged -/

/-- C7: pressing Cancel while `capturePoints` is collecting points makes it
reject with the `'cancelled'` error — immediately in single-click mode and
after any number of clicks in multiple mode — and the `btnSplit` handler
catches any rejection, leaving the animation registry unchanged. -/
theorem capture_cancel_spec :
    (∀ (multiple : Bool) (evs : List CaptureEv) (acc : List Coord),
      capturePoints multiple (CaptureEv.cancelBtn :: evs) acc =
        some (Except.error "cancelled")) ∧
    (∀ (ps : List Coord) (evs : List CaptureEv) (acc : List Coord),
      capturePoints true
        (ps.map CaptureEv.click ++ CaptureEv.cancelBtn :: evs) acc =
        some (Except.error "cancelled")) ∧
    (∀ (msg side color newId : String) (anims : List Anim),
      btnSplitHandler (some (Except.error msg)) side color newId anims =
        anims) := by
  refine ⟨fun _ _ _ => rfl, fun ps => ?_, fun _ _ _ _ _ => rfl⟩
  induction ps with
  | nil => intro evs acc; rfl
  | cons p rest ih =>
    intro evs acc
    simpa [capturePoints] using ih evs (acc ++ [p])

/-! ## C8: keyframe capture and playback -/

/-- C8: `placeKeyframe` returns the map's current center (as a `[lng, lat]`
pair) and zoom, and the keyframe branch of `playAnimation` flies the map to
exactly that stored center and zoom, whatever the map's view is at playback
time. -/
theorem placeKeyframe_playback_spec (m mPlayback : MapView)
    (optsId : Option String) (now : ℕ) :
    (placeKeyframe m optsId now).center = (m.center.lng, m.center.lat) ∧
    (placeKeyframe m optsId now).zoom = m.zoom ∧
    playKeyframeFlyTarget (placeKeyframe m optsId now).center
      (some (placeKeyframe m optsId now).zoom) mPlayback =
      (m.center, m.zoom) :=
  ⟨rfl, rfl, rfl⟩

/-! ## C10: route-stepping termination -/

/-- With a `NaN` step, every iteration after the first yields `NaN`. -/
lemma traveledAfter_nan (t : ℚ) :
    ∀ n : ℕ, traveledAfter JsNum.nan t (n + 1) = JsNum.nan := by
  intro n
  induction n with
  | zero => simp [traveledAfter, routeStep, JsNum.add, JsNum.gt]
  | succ m ih =>
    show routeStep JsNum.nan t (traveledAfter JsNum.nan t (m + 1)) = JsNum.nan
    rw [ih]
    simp [routeStep, JsNum.add, JsNum.gt]

/-- With a non-positive step and a positive total, the cap is never reached
and the travelled distance stays at `n * s`. -/
lemma traveledAfter_nonpos (s t : ℚ) (hs : s ≤ 0) (ht : 0 < t) :
    ∀ n : ℕ, traveledAfter (JsNum.num s) t n = JsNum.num (n * s) := by
  intro n
  induction n with
  | zero => simp [traveledAfter]
  | succ m ih =>
    show routeStep (JsNum.num s) t (traveledAfter (JsNum.num s) t m) = _
    rw [ih]
    have hms : (m : ℚ) * s + s ≤ 0 := by
      have : (m : ℚ) * s ≤ 0 := mul_nonpos_of_nonneg_of_nonpos (by positivity) hs
      linarith
    have hgt : (JsNum.num ((m : ℚ) * s + s)).gt (JsNum.num t) = false := by
      simp only [JsNum.gt, decide_eq_false_iff_not, not_lt]
      linarith
    simp only [routeStep, JsNum.add, hgt, Bool.false_eq_true, if_false]
    push_cast
    ring_nf

/-- With a positive step and a positive total, the travelled distance after
`n` iterations is `min (n * s) t`. -/
lemma traveledAfter_pos (s t : ℚ) (hs : 0 < s) (ht : 0 < t) :
    ∀ n : ℕ, traveledAfter (JsNum.num s) t n = JsNum.num (min ((n : ℚ) * s) t) := by
  intro n
  induction n with
  | zero => simp [traveledAfter, le_of_lt ht]
  | succ m ih =>
    show routeStep (JsNum.num s) t (traveledAfter (JsNum.num s) t m) = _
    rw [ih]
    simp only [routeStep, JsNum.add, JsNum.gt]
    rcases le_or_lt ((m : ℚ) * s) t with hmt | hmt
    · rw [min_eq_left hmt]
      rcases le_or_lt ((m : ℚ) * s + s) t with hnt | hnt
      · have : ¬ t < (m : ℚ) * s + s := not_lt.mpr hnt
        simp only [decide_eq_true_eq, this, if_false]
        rw [min_eq_left (by push_cast; linarith)]
        push_cast
        ring_nf
      · simp only [decide_eq_true_eq, hnt, if_true]
        rw [min_eq_right (by push_cast; linarith)]
    · rw [min_eq_right (le_of_lt hmt)]
      have : t < t + s := by linarith
      simp only [decide_eq_true_eq, this, if_true]
      rw [min_eq_right (by push_cast; nlinarith [Nat.cast_nonneg (α := ℚ) m])]

/-- C10: with a positive total route length, `drawRoute`'s stepping loop
reaches the total (and the promise resolves) iff the speed is a positive
number; with zero, negative or `NaN` speed the travelled distance never
reaches the total. -/
theorem drawRoute_resolves_iff (speed : JsNum) (totalMeters : ℚ)
    (htot : 0 < totalMeters) :
    drawRouteResolves speed totalMeters ↔
      ∃ q : ℚ, speed = JsNum.num q ∧ 0 < q := by
  cases speed with
  | nan =>
    simp only [drawRouteResolves, stepMeters, JsNum.mul]
    constructor
    · rintro ⟨n, hn⟩
      exfalso
      cases n with
      | zero =>
        simp only [traveledAfter, JsNum.ge, decide_eq_true_eq] at hn
        linarith
      | succ m =>
        rw [traveledAfter_nan totalMeters m] at hn
        simp [JsNum.ge] at hn
    · rintro ⟨q, hq, -⟩
      exact absurd hq (by simp)
  | num q =>
    have hstep : stepMeters (JsNum.num q) = JsNum.num (q * (40 / 1000)) := rfl
    rcases le_or_lt q 0 with hq | hq
    · have hs : q * (40 / 1000) ≤ 0 :=
        mul_nonpos_of_nonpos_of_nonneg hq (by norm_num)
      constructor
      · rintro ⟨n, hn⟩
        exfalso
        rw [hstep, traveledAfter_nonpos _ _ hs htot n] at hn
        simp only [JsNum.ge, decide_eq_true_eq] at hn
        have : (n : ℚ) * (q * (40 / 1000)) ≤ 0 :=
          mul_nonpos_of_nonneg_of_nonpos (by positivity) hs
        linarith
      · rintro ⟨q', hq', hq'pos⟩
        obtain rfl : q = q' := by simpa using hq'
        linarith
    · have hs : 0 < q * (40 / 1000) := by positivity
      refine ⟨fun _ => ⟨q, rfl, hq⟩, fun _ => ?_⟩
      obtain ⟨n, hn⟩ := exists_nat_ge (totalMeters / (q * (40 / 1000)))
      refine ⟨n, ?_⟩
      have hle : totalMeters ≤ (n : ℚ) * (q * (40 / 1000)) := by
        rw [div_le_iff₀ hs] at hn
        linarith
      rw [hstep, traveledAfter_pos _ _ hs htot n, min_eq_right hle]
      simp [JsNum.ge]

/-- Witness for C10: a 1000 m route drawn at 25 m/s resolves, since the
speed is a positive number. -/
theorem drawRoute_resolves_iff_witness :
    (0 : ℚ) < 1000 ∧
    (drawRouteResolves (JsNum.num 25) 1000 ↔
      ∃ q : ℚ, JsNum.num 25 = JsNum.num q ∧ 0 < q) :=
  ⟨by norm_num, drawRoute_resolves_iff (JsNum.num 25) 1000 (by norm_num)⟩

/-! ## C1: playback sequencing -/

/-- C1 counterexample: playing a polygon registry entry performs no map
transition at all — `playAnimation`'s polygon branch draws immediately
("Do NOT move the map", script.js line 694) — so not every entry's playback
starts with a `flyTo`/`fitBounds` transition. -/
theorem playAnimation_polygon_no_transition :
    (∀ s ∈ playAnimationTrace
        (Anim.polygon "p1" [(0, 0), (1, 0), (0, 1)] "purple"),
      s.isTransition = false) ∧
    playAnimationTrace (Anim.polygon "p1" [(0, 0), (1, 0), (0, 1)] "purple") =
      [PlayStep.draw "polygon", PlayStep.settle 6000] := by
  constructor
  · intro s hs
    simp only [playAnimationTrace, List.mem_cons, List.not_mem_nil,
      or_false] at hs
    rcases hs with rfl | rfl <;> rfl
  · rfl

/-- C1 (amended): playing a circle, split or marker entry drives a map
transition, waits for it, invokes the matching drawing primitive and waits a
fixed settle time; a route entry does the same but returns as soon as the
awaited `drawRoute` finishes, with no settle pause; a polygon entry invokes
its primitive immediately with no map transition, then waits the settle
time; a keyframe entry only performs the transition and a pause, invoking no
drawing primitive; an unrecognised type does nothing.  `btnPlayAll` plays
the registry entries strictly in stored order, awaiting each entry and a
500 ms pause before starting the next. -/
theorem playback_sequencing_spec :
    (∀ i c r col, playAnimationTrace (Anim.circle i c r col) =
      [PlayStep.fitBounds, PlayStep.awaitMoveEnd, PlayStep.draw "circle",
       PlayStep.settle 6000]) ∧
    (∀ i a b s col, playAnimationTrace (Anim.split i a b s col) =
      [PlayStep.flyTo, PlayStep.awaitMoveEnd, PlayStep.draw "split",
       PlayStep.settle 6000]) ∧
    (∀ i pts sp col, playAnimationTrace (Anim.route i pts sp col) =
      [PlayStep.fitBounds, PlayStep.awaitMoveEnd, PlayStep.draw "route"]) ∧
    (∀ i pts col, playAnimationTrace (Anim.polygon i pts col) =
      [PlayStep.draw "polygon", PlayStep.settle 6000]) ∧
    (∀ i p col, playAnimationTrace (Anim.marker i p col) =
      [PlayStep.flyTo, PlayStep.awaitMoveEnd, PlayStep.draw "marker",
       PlayStep.settle 500]) ∧
    (∀ i c z, playAnimationTrace (Anim.keyframe i c z) =
      [PlayStep.flyTo, PlayStep.awaitMoveEnd, PlayStep.settle 800]) ∧
    (∀ ty i, playAnimationTrace (Anim.other ty i) = []) ∧
    (∀ anims : List Anim, btnPlayAllTrace anims =
      anims.flatMap (fun a => playAnimationTrace a ++ [PlayStep.settle 500])) := by
  refine ⟨fun _ _ _ _ => rfl, fun _ _ _ _ _ => rfl, fun _ _ _ _ => rfl,
    fun _ _ _ => rfl, fun _ _ _ => rfl, fun _ _ _ => rfl, fun _ _ => rfl,
    fun anims => ?_⟩
  induction anims with
  | nil => rfl
  | cons a rest ih =>
    simp only [btnPlayAllTrace, List.flatMap_cons, ih, List.append_assoc,
      List.singleton_append]

/-! ## C2: return values of the drawing primitives -/

/-- C2 counterexample: `splitMap` has no `return` statement, so it evaluates
to `undefined` and in particular returns no identifier. -/
theorem splitMap_returns_no_identifier :
    specReturnsIdentifier (splitMapReturn (153, -27) (154, -28) "A") =
      false := rfl

/-- C2 (amended): `drawCircle` and (given at least three points)
`drawPolygon` return an id string, and `placeKeyframe` returns a record
containing an id; but `dropMarker` returns the marker object itself,
`splitMap` returns `undefined`, and `drawRoute` returns a promise that
resolves with no value — not identifiers. -/
theorem drawing_primitive_return_spec (optsId : Option String) (now : ℕ)
    (m : MapView) (points : List Coord) (hpts : 3 ≤ points.length)
    (lnglat pointA pointB : Coord) (side : String) (rpts : List Coord)
    (speed : ℚ) :
    specReturnsIdentifier (drawCircleReturn optsId now) = true ∧
    specReturnsIdentifier (drawPolygonReturn points optsId now) = true ∧
    placeKeyframeReturn m optsId now =
      JsValue.keyframeObj (placeKeyframe m optsId now) ∧
    (∃ tag, dropMarkerReturn (some lnglat) optsId = JsValue.markerObj tag) ∧
    splitMapReturn pointA pointB side = JsValue.undefinedValue ∧
    drawRouteReturn rpts speed = JsValue.promiseObj := by
  refine ⟨rfl, ?_, rfl, ⟨_, rfl⟩, rfl, rfl⟩
  rw [drawPolygonReturn, if_neg (by omega)]
  rfl

/-- Witness for C2 (amended) at concrete inputs, with a three-point
polygon. -/
theorem drawing_primitive_return_spec_witness :
    (3 ≤ ([(0, 0), (1, 0), (0, 1)] : List Coord).length) ∧
    (specReturnsIdentifier (drawCircleReturn none 0) = true ∧
     specReturnsIdentifier
       (drawPolygonReturn [(0, 0), (1, 0), (0, 1)] none 0) = true ∧
     placeKeyframeReturn ⟨⟨0, 0⟩, 13⟩ none 0 =
       JsValue.keyframeObj (placeKeyframe ⟨⟨0, 0⟩, 13⟩ none 0) ∧
     (∃ tag, dropMarkerReturn (some (0, 0)) none = JsValue.markerObj tag) ∧
     splitMapReturn (153, -27) (154, -28) "A" = JsValue.undefinedValue ∧
     drawRouteReturn [] 1 = JsValue.promiseObj) :=
  ⟨by norm_num,
   drawing_primitive_return_spec none 0 ⟨⟨0, 0⟩, 13⟩
     [(0, 0), (1, 0), (0, 1)] (by norm_num) (0, 0) (153, -27) (154, -28)
     "A" [] 1⟩

/-! ## C3: the split line is perpendicular through the midpoint -/

/-- C3: for distinct selected points, the split line `splitMap` draws —
from `p1Pixel` to `p2Pixel` — has the projected arithmetic-mean midpoint as
its pixel-space midpoint, and its direction is perpendicular (zero dot
product) to the pixel-space vector from A to B, whatever projection the map
applies. -/
theorem splitMap_line_spec (proj : (ℝ × ℝ) → Px) (pointA pointB : ℝ × ℝ)
    (extend : ℝ) (hAB : pointA ≠ pointB) :
    (splitP1 (proj pointA) (proj pointB)
        (proj (midpointCoord pointA pointB)) extend).1 +
      (splitP2 (proj pointA) (proj pointB)
        (proj (midpointCoord pointA pointB)) extend).1 =
      2 * (proj (midpointCoord pointA pointB)).1 ∧
    (splitP1 (proj pointA) (proj pointB)
        (proj (midpointCoord pointA pointB)) extend).2 +
      (splitP2 (proj pointA) (proj pointB)
        (proj (midpointCoord pointA pointB)) extend).2 =
      2 * (proj (midpointCoord pointA pointB)).2 ∧
    ((splitP2 (proj pointA) (proj pointB)
        (proj (midpointCoord pointA pointB)) extend).1 -
      (splitP1 (proj pointA) (proj pointB)
        (proj (midpointCoord pointA pointB)) extend).1) *
      ((proj pointB).1 - (proj pointA).1) +
    ((splitP2 (proj pointA) (proj pointB)
        (proj (midpointCoord pointA pointB)) extend).2 -
      (splitP1 (proj pointA) (proj pointB)
        (proj (midpointCoord pointA pointB)) extend).2) *
      ((proj pointB).2 - (proj pointA).2) = 0 := by
  refine ⟨?_, ?_, ?_⟩ <;>
    · simp only [splitP1, splitP2, perpUnit, pixVec]
      ring

/-- Witness for C3 with the identity projection, `A = (0,0)`, `B = (2,0)`
and `extend = 1`. -/
theorem splitMap_line_spec_witness :
    ((0, 0) : ℝ × ℝ) ≠ (2, 0) ∧
    ((splitP1 ((0, 0) : Px) (2, 0) (1, 0) 1).1 +
        (splitP2 ((0, 0) : Px) (2, 0) (1, 0) 1).1 = 2 * (1 : ℝ) ∧
      (splitP1 ((0, 0) : Px) (2, 0) (1, 0) 1).2 +
        (splitP2 ((0, 0) : Px) (2, 0) (1, 0) 1).2 = 2 * (0 : ℝ) ∧
      ((splitP2 ((0, 0) : Px) (2, 0) (1, 0) 1).1 -
          (splitP1 ((0, 0) : Px) (2, 0) (1, 0) 1).1) * ((2 : ℝ) - 0) +
        ((splitP2 ((0, 0) : Px) (2, 0) (1, 0) 1).2 -
          (splitP1 ((0, 0) : Px) (2, 0) (1, 0) 1).2) * ((0 : ℝ) - 0) = 0) := by
  refine ⟨by norm_num [Prod.ext_iff], ?_⟩
  have h := splitMap_line_spec (fun p => p) (0, 0) (2, 0) 1
    (by norm_num [Prod.ext_iff])
  simpa [midpointCoord] using h

/-! ## C4: the shaded polygon lies on the requested side -/

/-- `Math.sqrt(x) || 1` is just the square root when the argument is
positive. -/
lemma jsSqrtOr1_of_pos (x : ℝ) (hx : 0 < x) : jsSqrtOr1 x = Real.sqrt x := by
  rw [jsSqrtOr1, if_neg (Real.sqrt_pos.mpr hx).ne']

/-- `Math.sqrt(x) || 1` evaluated at a perfect square of a positive
number. -/
lemma jsSqrtOr1_sq (c : ℝ) (hc : 0 < c) (x : ℝ) (hx : x = c * c) :
    jsSqrtOr1 x = c := by
  subst hx
  rw [jsSqrtOr1, if_neg]
  · exact Real.sqrt_mul_self hc.le
  · rw [Real.sqrt_mul_self hc.le]
    exact hc.ne'

set_option maxHeartbeats 1600000 in
/-- C4: for pixel-distinct selected points, point A not lying on the split
line, and a positive extension length, the polygon shaded for side `'A'`
(far corners `polygonAFar1/2`) lies strictly on the same side of the split
line as point A, and the polygon shaded for side `'B'` lies strictly on the
opposite side; `shadedFarCorners` picks the A-polygon exactly when the
requested side is `'A'`. -/
theorem splitMap_shading_side_spec (aPt bPt midPt : Px) (extend : ℝ)
    (hv : aPt ≠ bPt) (he : 0 < extend)
    (hA : (bPt.1 - aPt.1) * (aPt.1 - midPt.1) +
        (bPt.2 - aPt.2) * (aPt.2 - midPt.2) ≠ 0) :
    0 < sideOf aPt bPt midPt extend aPt ∧
    0 < sideOf aPt bPt midPt extend (polygonAFar1 aPt bPt midPt extend) ∧
    0 < sideOf aPt bPt midPt extend (polygonAFar2 aPt bPt midPt extend) ∧
    sideOf aPt bPt midPt extend (polygonBFar1 aPt bPt midPt extend) < 0 ∧
    sideOf aPt bPt midPt extend (polygonBFar2 aPt bPt midPt extend) < 0 ∧
    shadedFarCorners aPt bPt midPt extend "A" =
      (polygonAFar1 aPt bPt midPt extend,
       polygonAFar2 aPt bPt midPt extend) ∧
    shadedFarCorners aPt bPt midPt extend "B" =
      (polygonBFar1 aPt bPt midPt extend,
       polygonBFar2 aPt bPt midPt extend) := by
  obtain ⟨a1, a2⟩ := aPt
  obtain ⟨b1, b2⟩ := bPt
  obtain ⟨m1, m2⟩ := midPt
  dsimp only at hA ⊢
  have hshadeA : shadedFarCorners (a1, a2) (b1, b2) (m1, m2) extend "A" =
      (polygonAFar1 (a1, a2) (b1, b2) (m1, m2) extend,
       polygonAFar2 (a1, a2) (b1, b2) (m1, m2) extend) := by
    simp [shadedFarCorners]
  have hshadeB : shadedFarCorners (a1, a2) (b1, b2) (m1, m2) extend "B" =
      (polygonBFar1 (a1, a2) (b1, b2) (m1, m2) extend,
       polygonBFar2 (a1, a2) (b1, b2) (m1, m2) extend) := by
    simp [shadedFarCorners]
  have hvv : b1 - a1 ≠ 0 ∨ b2 - a2 ≠ 0 := by
    by_contra hcon
    push_neg at hcon
    obtain ⟨h1, h2⟩ := hcon
    exact hv (by rw [Prod.mk.injEq]; constructor <;> linarith)
  have harg : 0 < -(b2 - a2) * -(b2 - a2) + (b1 - a1) * (b1 - a1) := by
    rcases hvv with h | h
    · nlinarith [mul_self_pos.mpr h, mul_self_nonneg (b2 - a2)]
    · nlinarith [mul_self_pos.mpr h, mul_self_nonneg (b1 - a1)]
  set S := Real.sqrt (-(b2 - a2) * -(b2 - a2) + (b1 - a1) * (b1 - a1))
    with hSdef
  have hSpos : 0 < S := Real.sqrt_pos.mpr harg
  have hS2 : S * S = -(b2 - a2) * -(b2 - a2) + (b1 - a1) * (b1 - a1) :=
    Real.mul_self_sqrt harg.le
  have hSne : S ≠ 0 := hSpos.ne'
  have hene : extend ≠ 0 := he.ne'
  have hperp : perpUnit (a1, a2) (b1, b2) =
      (-(b2 - a2) / S, (b1 - a1) / S) := by
    simp only [perpUnit, pixVec]
    rw [jsSqrtOr1_of_pos _ harg, ← hSdef]
  have hp1 : splitP1 (a1, a2) (b1, b2) (m1, m2) extend =
      (m1 + -(b2 - a2) / S * extend, m2 + (b1 - a1) / S * extend) := by
    simp only [splitP1, hperp]
  have hp2 : splitP2 (a1, a2) (b1, b2) (m1, m2) extend =
      (m1 - -(b2 - a2) / S * extend, m2 - (b1 - a1) / S * extend) := by
    simp only [splitP2, hperp]
  have hbase : splitNormalBase (a1, a2) (b1, b2) (m1, m2) extend =
      ((b1 - a1) / S, (b2 - a2) / S) := by
    simp only [splitNormalBase, hp1, hp2]
    rw [jsSqrtOr1_sq (2 * extend) (by linarith)]
    · rw [Prod.mk.injEq]
      constructor
      · field_simp
        ring
      · field_simp
        ring
    · field_simp
      linear_combination (-(4 * extend ^ 2)) * hS2
  by_cases hD : (b1 - a1) * (a1 - m1) + (b2 - a2) * (a2 - m2) < 0
  · have hnrm : splitNormal (a1, a2) (b1, b2) (m1, m2) extend =
        (-((b1 - a1) / S), -((b2 - a2) / S)) := by
      simp only [splitNormal, hbase, hp1]
      rw [if_pos]
      refine lt_of_eq_of_lt ?_ (div_neg_of_neg_of_pos hD hSpos)
      field_simp
      ring
    refine ⟨?_, ?_, ?_, ?_, ?_, hshadeA, hshadeB⟩
    · have hX : sideOf (a1, a2) (b1, b2) (m1, m2) extend (a1, a2) =
          -((b1 - a1) * (a1 - m1) + (b2 - a2) * (a2 - m2)) / S := by
        simp only [sideOf, hnrm, hp1]
        field_simp
        ring
      rw [hX]
      exact div_pos (by linarith) hSpos
    · have hX : sideOf (a1, a2) (b1, b2) (m1, m2) extend
          (polygonAFar1 (a1, a2) (b1, b2) (m1, m2) extend) = 3 * extend := by
        simp only [sideOf, polygonAFar1, bigPx, hnrm, hp1]
        field_simp
        linear_combination (-(3 * extend)) * hS2
      rw [hX]
      linarith
    · have hX : sideOf (a1, a2) (b1, b2) (m1, m2) extend
          (polygonAFar2 (a1, a2) (b1, b2) (m1, m2) extend) = 3 * extend := by
        simp only [sideOf, polygonAFar2, bigPx, hnrm, hp1, hp2]
        field_simp
        linear_combination (-(3 * extend)) * hS2
      rw [hX]
      linarith
    · have hX : sideOf (a1, a2) (b1, b2) (m1, m2) extend
          (polygonBFar1 (a1, a2) (b1, b2) (m1, m2) extend) =
          -(3 * extend) := by
        simp only [sideOf, polygonBFar1, bigPx, hnrm, hp1]
        field_simp
        linear_combination (3 * extend * S ^ 2) * hS2
      rw [hX]
      linarith
    · have hX : sideOf (a1, a2) (b1, b2) (m1, m2) extend
          (polygonBFar2 (a1, a2) (b1, b2) (m1, m2) extend) =
          -(3 * extend) := by
        simp only [sideOf, polygonBFar2, bigPx, hnrm, hp1, hp2]
        field_simp
        linear_combination (3 * extend) * hS2
      rw [hX]
      linarith
  · have hDpos : 0 < (b1 - a1) * (a1 - m1) + (b2 - a2) * (a2 - m2) :=
      lt_of_le_of_ne (not_lt.mp hD) (Ne.symm hA)
    have hnrm : splitNormal (a1, a2) (b1, b2) (m1, m2) extend =
        ((b1 - a1) / S, (b2 - a2) / S) := by
      simp only [splitNormal, hbase, hp1]
      rw [if_neg]
      rw [not_lt]
      refine le_of_le_of_eq (div_pos hDpos hSpos).le ?_
      field_simp
      ring
    refine ⟨?_, ?_, ?_, ?_, ?_, hshadeA, hshadeB⟩
    · have hX : sideOf (a1, a2) (b1, b2) (m1, m2) extend (a1, a2) =
          ((b1 - a1) * (a1 - m1) + (b2 - a2) * (a2 - m2)) / S := by
        simp only [sideOf, hnrm, hp1]
        field_simp
        ring
      rw [hX]
      exact div_pos hDpos hSpos
    · have hX : sideOf (a1, a2) (b1, b2) (m1, m2) extend
          (polygonAFar1 (a1, a2) (b1, b2) (m1, m2) extend) = 3 * extend := by
        simp only [sideOf, polygonAFar1, bigPx, hnrm, hp1]
        field_simp
        linear_combination (-(3 * extend)) * hS2
      rw [hX]
      linarith
    · have hX : sideOf (a1, a2) (b1, b2) (m1, m2) extend
          (polygonAFar2 (a1, a2) (b1, b2) (m1, m2) extend) = 3 * extend := by
        simp only [sideOf, polygonAFar2, bigPx, hnrm, hp1, hp2]
        field_simp
        linear_combination (-(3 * extend)) * hS2
      rw [hX]
      linarith
    · have hX : sideOf (a1, a2) (b1, b2) (m1, m2) extend
          (polygonBFar1 (a1, a2) (b1, b2) (m1, m2) extend) =
          -(3 * extend) := by
        simp only [sideOf, polygonBFar1, bigPx, hnrm, hp1]
        field_simp
        linear_combination (3 * extend * S ^ 2) * hS2
      rw [hX]
      linarith
    · have hX : sideOf (a1, a2) (b1, b2) (m1, m2) extend
          (polygonBFar2 (a1, a2) (b1, b2) (m1, m2) extend) =
          -(3 * extend) := by
        simp only [sideOf, polygonBFar2, bigPx, hnrm, hp1, hp2]
        field_simp
        linear_combination (3 * extend) * hS2
      rw [hX]
      linarith

/-- Witness for C4 with `aPt = (0,0)`, `bPt = (2,0)`, `midPt = (1,0)` and
`extend = 1`: the hypotheses hold and point A lies strictly on the shaded
A-side of the split line. -/
theorem splitMap_shading_side_spec_witness :
    (((0, 0) : Px) ≠ (2, 0) ∧ (0 : ℝ) < 1 ∧
      (((2, 0) : Px).1 - ((0, 0) : Px).1) *
          (((0, 0) : Px).1 - ((1, 0) : Px).1) +
        (((2, 0) : Px).2 - ((0, 0) : Px).2) *
          (((0, 0) : Px).2 - ((1, 0) : Px).2) ≠ 0) ∧
    0 < sideOf ((0, 0) : Px) (2, 0) (1, 0) 1 (0, 0) :=
  ⟨⟨by norm_num [Prod.ext_iff], by norm_num, by norm_num⟩,
   (splitMap_shading_side_spec (0, 0) (2, 0) (1, 0) 1
     (by norm_num [Prod.ext_iff]) (by norm_num) (by norm_num)).1⟩

end Portal
